import Mathlib

/-!
# Verification of the mqf Riemannian Conjugate Gradient optimizer

Shallow embedding of `include/mqf/optimization/conjugate_gradient.h`.
The optimizer is templated over a geometry (`Metric`, `Geodesic`) and a
conjugate-gradient scheme tag; we embed it as Lean functions parameterized
over an abstract `Geometry` record and a `Scheme` value.  Scalars
(`double` in the source) are embedded as `ℚ`; the claims under study are
algebraic identities between field reads and arithmetic expressions, not
floating-point rounding facts.  The `uint32_t` counters `n`, `maxSteps`
are embedded as `ℕ`: the loop in `optimize` keeps `n ≤ maxSteps`, so no
wrap-around is reachable.

The collaborator `linesearch.h` is not part of the sources; its interface
is modelled from the spec (see `LineSearchModel` below).
-/

namespace Mqf

/-- Tags for the CG schemes (`FletcherReeves`, `PolakRibiere`,
`HestenesStiefel`, `ConjugateDescent`, `DaiYuan` in the source). -/
inductive Scheme : Type
  | fletcherReeves
  | polakRibiere
  | hestenesStiefel
  | conjugateDescent
  | daiYuan
deriving DecidableEq, Repr

/-- The default scheme of `ConjugateGradient`: the template parameter
default `typename Scheme = HestenesStiefel`. -/
def defaultScheme : Scheme := Scheme.hestenesStiefel

/-- The geometry a concrete instantiation supplies: the `Metric`
(returning, at each point, an inner product and a squared norm), the
geodesic evaluation `geodesic(t)` for a geodesic bound to a
(point, velocity) pair, and parallel transport of a tangent vector along
such a geodesic, together with the tangent-vector space operations. -/
structure Geometry (Point Vector : Type) where
  /-- `metric(p)(u, v)`: the inner product at `p`. -/
  inner : Point → Vector → Vector → ℚ
  /-- `metric(p).norm2(v)`: the squared norm at `p` (a separate member in
  the source; the data model requires `norm2 p v = inner p v v`). -/
  norm2 : Point → Vector → ℚ
  /-- `geodesic(t)` for the geodesic bound to `(p, vel)`. -/
  geval : Point → Vector → ℚ → Point
  /-- `geodesic.parallelTranslate(w, t)` for the geodesic bound to `(p, vel)`. -/
  gpt : Point → Vector → Vector → ℚ → Vector
  /-- Tangent-vector negation `-v`. -/
  neg : Vector → Vector
  /-- Tangent-vector addition `u + v`. -/
  add : Vector → Vector → Vector
  /-- Tangent-vector subtraction `u - v`. -/
  sub : Vector → Vector → Vector
  /-- Scalar multiplication `v * c`. -/
  smul : Vector → ℚ → Vector

/-- Modelled from the spec: the repository's `linesearch.h` is not under
the sources; §4.3 specifies `search(valueFn, derivativeFn)` returning a
step size `alpha` (non-positive meaning no improving step), internal
memory cleared by `reset()`, and the chosen `alpha` of the most recent
call remaining readable.  `μ` is the abstract internal memory type;
`search` consumes and returns it, and `reset0` is the cleared memory
installed by `reset()`. -/
structure LineSearchModel (μ : Type) where
  search : (ℚ → ℚ) → (ℚ → ℚ) → μ → ℚ × μ
  reset0 : μ

/-- The mutable state of a `LineSearch` object: the readable `alpha` of
the most recent `search`, plus the abstract internal memory. -/
structure LineSearchState (μ : Type) where
  alpha : ℚ
  mem : μ
deriving DecidableEq

/-- Modelled from the spec: `lineSearch.reset()` clears the internal
memory of a previous search. -/
def resetLS {μ : Type} (L : LineSearchModel μ) (ls : LineSearchState μ) :
    LineSearchState μ :=
  { ls with mem := L.reset0 }

/-- The fields of a `ConjugateGradient` instance: iteration counter `n`,
cap `maxSteps`, points `x`, `lastX`, tangent vectors `grad`, `lastGrad`,
`velocity`, `ptLastVel`, the owned `Geodesic` state (the `(point,
velocity)` pair it was last `set` with, readable as `geodesic.velocity`),
and the owned `LineSearch` state. -/
structure CGState (Point Vector μ : Type) where
  n : ℕ
  maxSteps : ℕ
  x : Point
  lastX : Point
  grad : Vector
  lastGrad : Vector
  velocity : Vector
  ptLastVel : Vector
  geoPt : Point
  geoVel : Vector
  ls : LineSearchState μ
deriving DecidableEq

variable {Point Vector μ : Type}

/-- The scheme dispatch `modifier<Scheme>()`: each case reads the member
fields exactly as the corresponding specialization in the source does.
The geodesic state used by `parallelTranslate` here is whatever the
instance currently holds (in `step`, the previous geodesic, since
`modifier` runs before `geodesic.set`). -/
def modifier (G : Geometry Point Vector) (s : CGState Point Vector μ) :
    Scheme → ℚ
  | Scheme.fletcherReeves =>
      G.norm2 s.x s.grad / G.norm2 s.lastX s.lastGrad
  | Scheme.polakRibiere =>
      let ptlastGrad := G.gpt s.geoPt s.geoVel s.lastGrad s.ls.alpha
      G.inner s.x s.grad (G.sub s.grad ptlastGrad) / G.norm2 s.x ptlastGrad
  | Scheme.hestenesStiefel =>
      let ptlastGrad := G.gpt s.geoPt s.geoVel s.lastGrad s.ls.alpha
      let diff := G.sub s.grad ptlastGrad
      G.inner s.x s.grad diff / G.inner s.x s.ptLastVel diff
  | Scheme.conjugateDescent =>
      let ptlastGrad := G.gpt s.geoPt s.geoVel s.lastGrad s.ls.alpha
      Neg.neg (G.norm2 s.x s.grad) / G.inner s.x s.ptLastVel ptlastGrad
  | Scheme.daiYuan =>
      let ptlastGrad := G.gpt s.geoPt s.geoVel s.lastGrad s.ls.alpha
      G.norm2 s.x s.grad / G.inner s.x s.ptLastVel (G.sub s.grad ptlastGrad)

/-- One iteration `step(cost, gradient)`: returns the `bool` result and
the updated instance state.  Mirrors the source line by line:
`swap(lastGrad, grad); grad = gradient(x);` then `velocity = -grad`,
the `n > 0` branch computing `ptLastVel` and adding
`ptLastVel * modifier<Scheme>()`, then `geodesic.set(x, velocity)`, the
line search with the two lambdas, and either `return false` (`alpha ≤ 0`)
or `swap(lastX, x); x = geodesic(alpha); return true`. -/
def step (G : Geometry Point Vector) (L : LineSearchModel μ) (sch : Scheme)
    (cost : Point → ℚ) (gradient : Point → Vector)
    (s : CGState Point Vector μ) : Bool × CGState Point Vector μ :=
  let s1 : CGState Point Vector μ :=
    { s with lastGrad := s.grad, grad := gradient s.x,
             velocity := G.neg (gradient s.x) }
  let s2 : CGState Point Vector μ :=
    if 0 < s1.n then
      let pv := G.gpt s1.geoPt s1.geoVel s1.geoVel s1.ls.alpha
      let s1a := { s1 with ptLastVel := pv }
      { s1a with velocity := G.add s1a.velocity (G.smul pv (modifier G s1a sch)) }
    else s1
  let s3 := { s2 with geoPt := s2.x, geoVel := s2.velocity }
  let r := L.search
    (fun t => cost (G.geval s3.geoPt s3.geoVel t))
    (fun t =>
      G.inner (G.geval s3.geoPt s3.geoVel t)
        (gradient (G.geval s3.geoPt s3.geoVel t))
        (G.gpt s3.geoPt s3.geoVel s3.geoVel t))
    s3.ls.mem
  let s4 := { s3 with ls := ⟨r.1, r.2⟩ }
  if r.1 ≤ 0 then (false, s4)
  else (true, { s4 with lastX := s4.x, x := G.geval s3.geoPt s3.geoVel r.1 })

/-- The loop body of `optimize`: `for(n = ...; n < maxSteps; ++n) {
if(!step(cost, gradient)) break; }`.  `fuel` is a structural-recursion
bound; `optimize` supplies `fuel = maxSteps` with `n = 0`, under which
the `n < maxSteps` guard is exactly the source's loop condition. -/
def optLoop (G : Geometry Point Vector) (L : LineSearchModel μ)
    (sch : Scheme) (cost : Point → ℚ) (gradient : Point → Vector) :
    ℕ → CGState Point Vector μ → CGState Point Vector μ
  | 0, s => s
  | fuel + 1, s =>
      if s.n < s.maxSteps then
        let r := step G L sch cost gradient s
        if r.1 then optLoop G L sch cost gradient fuel { r.2 with n := r.2.n + 1 }
        else r.2
      else s

/-- `optimize(initial, cost, gradient)`: `x = initial;
lineSearch.reset(); for(n=0; n<maxSteps; ++n) if(!step(...)) break;
return x;`.  Returns the returned point together with the final instance
state. -/
def optimize (G : Geometry Point Vector) (L : LineSearchModel μ)
    (sch : Scheme) (cost : Point → ℚ) (gradient : Point → Vector)
    (initial : Point) (s : CGState Point Vector μ) :
    Point × CGState Point Vector μ :=
  let s0 := { s with x := initial, n := 0, ls := resetLS L s.ls }
  let sf := optLoop G L sch cost gradient s.maxSteps s0
  (sf.x, sf)

/-- Instrumentation: the number of calls to `step` the loop of `optimize`
performs (each loop entry with `n < maxSteps` calls `step` exactly once). -/
def optLoopCount (G : Geometry Point Vector) (L : LineSearchModel μ)
    (sch : Scheme) (cost : Point → ℚ) (gradient : Point → Vector) :
    ℕ → CGState Point Vector μ → ℕ
  | 0, _ => 0
  | fuel + 1, s =>
      if s.n < s.maxSteps then
        let r := step G L sch cost gradient s
        if r.1 then
          1 + optLoopCount G L sch cost gradient fuel { r.2 with n := r.2.n + 1 }
        else 1
      else 0

/-- Instrumentation: the number of `step` calls made by
`optimize(initial, cost, gradient)`. -/
def optimizeCount (G : Geometry Point Vector) (L : LineSearchModel μ)
    (sch : Scheme) (cost : Point → ℚ) (gradient : Point → Vector)
    (initial : Point) (s : CGState Point Vector μ) : ℕ :=
  optLoopCount G L sch cost gradient s.maxSteps
    { s with x := initial, n := 0, ls := resetLS L s.ls }

/-- Instrumentation: the sequence of points visited by the loop of
`optimize` (the value of `x` after each successful `step`; a failed
`step` does not move `x`). -/
def optLoopTraj (G : Geometry Point Vector) (L : LineSearchModel μ)
    (sch : Scheme) (cost : Point → ℚ) (gradient : Point → Vector) :
    ℕ → CGState Point Vector μ → List Point
  | 0, _ => []
  | fuel + 1, s =>
      if s.n < s.maxSteps then
        let r := step G L sch cost gradient s
        if r.1 then
          r.2.x :: optLoopTraj G L sch cost gradient fuel { r.2 with n := r.2.n + 1 }
        else []
      else []

/-- Instrumentation: the sequence of points visited by
`optimize(initial, cost, gradient)`. -/
def optimizeTraj (G : Geometry Point Vector) (L : LineSearchModel μ)
    (sch : Scheme) (cost : Point → ℚ) (gradient : Point → Vector)
    (initial : Point) (s : CGState Point Vector μ) : List Point :=
  optLoopTraj G L sch cost gradient s.maxSteps
    { s with x := initial, n := 0, ls := resetLS L s.ls }

/-- Spec-side loop, following the spec's words for `optimize` (§4.4):
"iterates `step` while `n < maxSteps` and `step` succeeds", i.e. run at
most `k` iterations, stopping at the first failed `step`.  Unlike
`optLoop` (which embeds the source's `for(n=...; n<maxSteps; ++n)`
guard), this recursion is driven purely by the remaining-iteration
count; the refinement theorem for the claim about `optimize` relates the
two. -/
def specIterate (G : Geometry Point Vector) (L : LineSearchModel μ)
    (sch : Scheme) (cost : Point → ℚ) (gradient : Point → Vector) :
    ℕ → CGState Point Vector μ → CGState Point Vector μ
  | 0, s => s
  | k + 1, s =>
      let r := step G L sch cost gradient s
      if r.1 = false then r.2
      else specIterate G L sch cost gradient k { r.2 with n := r.2.n + 1 }


/-- Concrete 1-dimensional Euclidean geometry (`geodesic(t) = x + t·v`,
parallel transport the identity, dot-product metric), used to evaluate
the theorems on concrete inputs. -/
def euclid1 : Geometry ℚ ℚ where
  inner _ u v := u * v
  norm2 _ v := v * v
  geval x v t := x + t * v
  gpt _ _ w _ := w
  neg v := -v
  add u v := u + v
  sub u v := u - v
  smul v c := v * c

/-- A line search that always reports step size `1`. -/
def lsOne : LineSearchModel Unit where
  search _ _ _ := (1, ())
  reset0 := ()

/-- A line search that always reports "no improving step" (`alpha = 0`). -/
def lsFail : LineSearchModel Unit where
  search _ _ _ := (0, ())
  reset0 := ()

/-- Concrete cost `p ↦ p²`. -/
def costW (p : ℚ) : ℚ := p * p

/-- Concrete gradient `p ↦ 2p`. -/
def gradW (p : ℚ) : ℚ := 2 * p

/-- A concrete mid-run state (`n = 1`). -/
def sW1 : CGState ℚ ℚ Unit where
  n := 1
  maxSteps := 5
  x := 2
  lastX := 3
  grad := 6
  lastGrad := 5
  velocity := -4
  ptLastVel := 7
  geoPt := 3
  geoVel := -4
  ls := ⟨1/2, ()⟩


/-- A fresh state (`n = 0`) with arbitrary residue in the fields a first
iteration must ignore. -/
def sWa : CGState ℚ ℚ Unit where
  n := 0
  maxSteps := 4
  x := 2
  lastX := 9
  grad := 3
  lastGrad := 8
  velocity := 6
  ptLastVel := 11
  geoPt := 7
  geoVel := 5
  ls := ⟨-2, ()⟩

/-- Like `sWa` but with different residue in `lastX`, `lastGrad`,
`ptLastVel` and the stored `alpha`. -/
def sWb : CGState ℚ ℚ Unit where
  n := 0
  maxSteps := 4
  x := 2
  lastX := -9
  grad := 3
  lastGrad := 13
  velocity := 6
  ptLastVel := -11
  geoPt := 7
  geoVel := 5
  ls := ⟨4, ()⟩

/-- `step` never touches the iteration counter (the loop in `optimize`
owns `++n`). -/
theorem step_n (G : Geometry Point Vector) (L : LineSearchModel μ)
    (sch : Scheme) (cost : Point → ℚ) (gradient : Point → Vector)
    (s : CGState Point Vector μ) :
    (step G L sch cost gradient s).2.n = s.n := by
  unfold step
  dsimp only
  split <;> split <;> rfl

/-- `step` never touches `maxSteps`. -/
theorem step_maxSteps (G : Geometry Point Vector) (L : LineSearchModel μ)
    (sch : Scheme) (cost : Point → ℚ) (gradient : Point → Vector)
    (s : CGState Point Vector μ) :
    (step G L sch cost gradient s).2.maxSteps = s.maxSteps := by
  unfold step
  dsimp only
  split <;> split <;> rfl

/-- `step` reports failure exactly when the `alpha` chosen by the line
search (stored as `lineSearch.alpha`) is non-positive. -/
theorem step_fst_false_iff (G : Geometry Point Vector) (L : LineSearchModel μ)
    (sch : Scheme) (cost : Point → ℚ) (gradient : Point → Vector)
    (s : CGState Point Vector μ) :
    (step G L sch cost gradient s).1 = false ↔
      (step G L sch cost gradient s).2.ls.alpha ≤ 0 := by
  unfold step
  dsimp only
  split <;> (split <;> rename_i hc <;> simp [hc])

/-- A failed `step` leaves `x` and `lastX` untouched. -/
theorem step_fail_frame (G : Geometry Point Vector) (L : LineSearchModel μ)
    (sch : Scheme) (cost : Point → ℚ) (gradient : Point → Vector)
    (s : CGState Point Vector μ)
    (h : (step G L sch cost gradient s).1 = false) :
    (step G L sch cost gradient s).2.x = s.x ∧
    (step G L sch cost gradient s).2.lastX = s.lastX := by
  unfold step at h ⊢
  dsimp only at h ⊢
  split at h <;> split at h <;> simp_all

/-- Updates every call to `step` performs, successful or not: the old
gradient is saved, the gradient is re-evaluated at `x`, and the geodesic
is rebound to `(x, velocity)`. -/
theorem step_common (G : Geometry Point Vector) (L : LineSearchModel μ)
    (sch : Scheme) (cost : Point → ℚ) (gradient : Point → Vector)
    (s : CGState Point Vector μ) :
    (step G L sch cost gradient s).2.lastGrad = s.grad ∧
    (step G L sch cost gradient s).2.grad = gradient s.x ∧
    (step G L sch cost gradient s).2.geoPt = s.x ∧
    (step G L sch cost gradient s).2.geoVel =
      (step G L sch cost gradient s).2.velocity := by
  refine ⟨?_, ?_, ?_, ?_⟩ <;> (unfold step; dsimp only; split <;> split <;> rfl)

/-- On a first-iteration call (`n = 0`) the velocity is the bare negative
gradient and `ptLastVel` is not written. -/
theorem step_velocity_zero (G : Geometry Point Vector) (L : LineSearchModel μ)
    (sch : Scheme) (cost : Point → ℚ) (gradient : Point → Vector)
    (s : CGState Point Vector μ) (h : s.n = 0) :
    (step G L sch cost gradient s).2.velocity = G.neg (gradient s.x) ∧
    (step G L sch cost gradient s).2.ptLastVel = s.ptLastVel := by
  constructor <;> (simp [step, h]; try (split <;> rfl))

/-- On a later call (`n > 0`) the velocity is the negative gradient plus
the transported previous velocity scaled by the scheme's `beta`, and the
transported previous velocity is stored in `ptLastVel`. -/
theorem step_velocity_pos (G : Geometry Point Vector) (L : LineSearchModel μ)
    (sch : Scheme) (cost : Point → ℚ) (gradient : Point → Vector)
    (s : CGState Point Vector μ) (h : 0 < s.n) :
    (step G L sch cost gradient s).2.velocity =
      G.add (G.neg (gradient s.x))
        (G.smul (G.gpt s.geoPt s.geoVel s.geoVel s.ls.alpha)
          (modifier G
            { s with grad := gradient s.x, lastGrad := s.grad,
                     velocity := G.neg (gradient s.x),
                     ptLastVel := G.gpt s.geoPt s.geoVel s.geoVel s.ls.alpha }
            sch)) ∧
    (step G L sch cost gradient s).2.ptLastVel =
      G.gpt s.geoPt s.geoVel s.geoVel s.ls.alpha := by
  constructor <;> (simp [step, h, h.ne.symm]; try (split <;> rfl))

/-- C1: for every call to `step`, after evaluating the new gradient at
`x`, the search velocity equals the negative gradient when the iteration
index `n` is `0`; for `n > 0` it equals `-grad` plus `ptLastVel` scaled
by the selected scheme's beta, where `ptLastVel` is the previous
geodesic's velocity parallel-transported along the previous geodesic by
the previous step's line-search `alpha` (and is stored in the
`ptLastVel` field). -/
theorem c1_step_velocity (G : Geometry Point Vector) (L : LineSearchModel μ)
    (sch : Scheme) (cost : Point → ℚ) (gradient : Point → Vector)
    (s : CGState Point Vector μ) :
    (step G L sch cost gradient s).2.velocity =
      (if s.n = 0 then G.neg (gradient s.x)
       else
        G.add (G.neg (gradient s.x))
          (G.smul (G.gpt s.geoPt s.geoVel s.geoVel s.ls.alpha)
            (modifier G
              { s with grad := gradient s.x, lastGrad := s.grad,
                       velocity := G.neg (gradient s.x),
                       ptLastVel := G.gpt s.geoPt s.geoVel s.geoVel s.ls.alpha }
              sch))) ∧
    (step G L sch cost gradient s).2.ptLastVel =
      (if s.n = 0 then s.ptLastVel
       else G.gpt s.geoPt s.geoVel s.geoVel s.ls.alpha) := by
  rcases Nat.eq_zero_or_pos s.n with h | h
  · rw [if_pos h, if_pos h]
    exact step_velocity_zero G L sch cost gradient s h
  · rw [if_neg h.ne.symm, if_neg h.ne.symm]
    exact step_velocity_pos G L sch cost gradient s h

/-- C3: whenever the line search returns `alpha ≤ 0`, `step` returns
failure with `x` and `lastX` exactly as before the call, and the
surrounding `optimize` loop stops at that step and returns the last
successfully reached point. -/
theorem c3_nonpositive_alpha_failure (G : Geometry Point Vector)
    (L : LineSearchModel μ) (sch : Scheme) (cost : Point → ℚ)
    (gradient : Point → Vector) (s : CGState Point Vector μ)
    (h : (step G L sch cost gradient s).2.ls.alpha ≤ 0) :
    (step G L sch cost gradient s).1 = false ∧
    (step G L sch cost gradient s).2.x = s.x ∧
    (step G L sch cost gradient s).2.lastX = s.lastX ∧
    ∀ fuel, s.n < s.maxSteps →
      (optLoop G L sch cost gradient (fuel + 1) s).x = s.x := by
  have hf := (step_fst_false_iff G L sch cost gradient s).mpr h
  have hfr := step_fail_frame G L sch cost gradient s hf
  refine ⟨hf, hfr.1, hfr.2, ?_⟩
  intro fuel hlt
  simp [optLoop, hlt, hf, hfr.1]

/-- Witness for C3 at a concrete failing line search. -/
theorem c3_nonpositive_alpha_failure_witness :
    ((step euclid1 lsFail Scheme.hestenesStiefel costW gradW sW1).2.ls.alpha ≤ 0) ∧
    (step euclid1 lsFail Scheme.hestenesStiefel costW gradW sW1).1 = false ∧
    (optLoop euclid1 lsFail Scheme.hestenesStiefel costW gradW (2 + 1) sW1).x = sW1.x := by
  have h : (step euclid1 lsFail Scheme.hestenesStiefel costW gradW sW1).2.ls.alpha ≤ 0 := by
    decide
  have hc := c3_nonpositive_alpha_failure euclid1 lsFail Scheme.hestenesStiefel
    costW gradW sW1 h
  exact ⟨h, hc.1, hc.2.2.2 2 (by decide)⟩

/-- C4: Hestenes–Stiefel is the default scheme, and for `n > 0` its beta
is `⟨grad, grad − ptlastGrad⟩ / ⟨ptLastVel, grad − ptlastGrad⟩` under
the metric at `x`, with `ptlastGrad` the previous gradient
parallel-transported along the previous geodesic by the previous
step's `alpha`. -/
theorem c4_default_hestenes_stiefel_beta (G : Geometry Point Vector)
    (L : LineSearchModel μ) (cost : Point → ℚ) (gradient : Point → Vector)
    (s : CGState Point Vector μ) (h : 0 < s.n) :
    defaultScheme = Scheme.hestenesStiefel ∧
    (step G L defaultScheme cost gradient s).2.velocity =
      G.add (G.neg (gradient s.x))
        (G.smul (G.gpt s.geoPt s.geoVel s.geoVel s.ls.alpha)
          (G.inner s.x (gradient s.x)
              (G.sub (gradient s.x) (G.gpt s.geoPt s.geoVel s.grad s.ls.alpha)) /
            G.inner s.x (G.gpt s.geoPt s.geoVel s.geoVel s.ls.alpha)
              (G.sub (gradient s.x) (G.gpt s.geoPt s.geoVel s.grad s.ls.alpha)))) := by
  refine ⟨rfl, ?_⟩
  rw [(step_velocity_pos G L defaultScheme cost gradient s h).1]
  simp [modifier, defaultScheme]

/-- Witness for C4 at a concrete mid-run state. -/
theorem c4_default_hestenes_stiefel_beta_witness :
    0 < sW1.n ∧
    (step euclid1 lsOne defaultScheme costW gradW sW1).2.velocity = 0 := by
  refine ⟨by decide, ?_⟩
  rw [(c4_default_hestenes_stiefel_beta euclid1 lsOne costW gradW sW1 (by decide)).2]
  norm_num [euclid1, gradW, sW1]

/-- C5: under Fletcher–Reeves, for `n > 0`, beta is the squared norm of
the current gradient under the metric at `x` divided by the squared norm
of the previous gradient under the metric at `lastX` (squared norms
being self-inner-products per the data model). -/
theorem c5_fletcher_reeves_beta (G : Geometry Point Vector)
    (L : LineSearchModel μ) (cost : Point → ℚ) (gradient : Point → Vector)
    (s : CGState Point Vector μ) (h : 0 < s.n)
    (hn : ∀ p v, G.norm2 p v = G.inner p v v) :
    (step G L Scheme.fletcherReeves cost gradient s).2.velocity =
      G.add (G.neg (gradient s.x))
        (G.smul (G.gpt s.geoPt s.geoVel s.geoVel s.ls.alpha)
          (G.inner s.x (gradient s.x) (gradient s.x) /
            G.inner s.lastX s.grad s.grad)) := by
  rw [(step_velocity_pos G L Scheme.fletcherReeves cost gradient s h).1]
  simp [modifier, hn]

/-- Witness for C5 at a concrete mid-run state. -/
theorem c5_fletcher_reeves_beta_witness :
    0 < sW1.n ∧ (∀ p v, euclid1.norm2 p v = euclid1.inner p v v) ∧
    (step euclid1 lsOne Scheme.fletcherReeves costW gradW sW1).2.velocity = -52 / 9 := by
  refine ⟨by decide, fun p v => rfl, ?_⟩
  rw [c5_fletcher_reeves_beta euclid1 lsOne costW gradW sW1 (by decide) (fun p v => rfl)]
  norm_num [euclid1, gradW, sW1]

/-- C6: in every call to `step`, the geodesic is rebound to
`(x, velocity)`, and the line search is handed the value function
`t ↦ cost(geodesic(t))` and the derivative
`t ↦ ⟨gradient(geodesic(t)), transported velocity⟩` under the metric at
`geodesic(t)`; its result becomes the stored `alpha` and memory. -/
theorem c6_linesearch_arguments (G : Geometry Point Vector)
    (L : LineSearchModel μ) (sch : Scheme) (cost : Point → ℚ)
    (gradient : Point → Vector) (s : CGState Point Vector μ) :
    (step G L sch cost gradient s).2.geoPt = s.x ∧
    (step G L sch cost gradient s).2.geoVel =
      (step G L sch cost gradient s).2.velocity ∧
    ((step G L sch cost gradient s).2.ls.alpha,
      (step G L sch cost gradient s).2.ls.mem) =
      L.search
        (fun t => cost (G.geval s.x (step G L sch cost gradient s).2.velocity t))
        (fun t =>
          G.inner (G.geval s.x (step G L sch cost gradient s).2.velocity t)
            (gradient (G.geval s.x (step G L sch cost gradient s).2.velocity t))
            (G.gpt s.x (step G L sch cost gradient s).2.velocity
              (step G L sch cost gradient s).2.velocity t))
        s.ls.mem := by
  obtain ⟨h1, h2, h3, h4⟩ := step_common G L sch cost gradient s
  refine ⟨h3, h4, ?_⟩
  rcases Nat.eq_zero_or_pos s.n with h | h
  · rw [(step_velocity_zero G L sch cost gradient s h).1]
    simp [step, h]
    try (split <;> rfl)
  · rw [(step_velocity_pos G L sch cost gradient s h).1]
    simp [step, h, h.ne.symm]
    try (split <;> rfl)

/-- C9: a failed `step` is not side-effect free: it has already saved
the old gradient, re-evaluated the gradient at `x`, recomputed the
velocity (and `ptLastVel` when `n > 0`), and rebound the geodesic to
`(x, velocity)`; only `x` and `lastX` are left unchanged. -/
theorem c9_failed_step_effects (G : Geometry Point Vector)
    (L : LineSearchModel μ) (sch : Scheme) (cost : Point → ℚ)
    (gradient : Point → Vector) (s : CGState Point Vector μ)
    (h : (step G L sch cost gradient s).1 = false) :
    (step G L sch cost gradient s).2.x = s.x ∧
    (step G L sch cost gradient s).2.lastX = s.lastX ∧
    (step G L sch cost gradient s).2.lastGrad = s.grad ∧
    (step G L sch cost gradient s).2.grad = gradient s.x ∧
    (step G L sch cost gradient s).2.geoPt = s.x ∧
    (step G L sch cost gradient s).2.geoVel =
      (step G L sch cost gradient s).2.velocity ∧
    (s.n = 0 →
      (step G L sch cost gradient s).2.velocity = G.neg (gradient s.x) ∧
      (step G L sch cost gradient s).2.ptLastVel = s.ptLastVel) ∧
    (0 < s.n →
      (step G L sch cost gradient s).2.velocity =
        G.add (G.neg (gradient s.x))
          (G.smul (G.gpt s.geoPt s.geoVel s.geoVel s.ls.alpha)
            (modifier G
              { s with grad := gradient s.x, lastGrad := s.grad,
                       velocity := G.neg (gradient s.x),
                       ptLastVel := G.gpt s.geoPt s.geoVel s.geoVel s.ls.alpha }
              sch)) ∧
      (step G L sch cost gradient s).2.ptLastVel =
        G.gpt s.geoPt s.geoVel s.geoVel s.ls.alpha) := by
  obtain ⟨hx, hlx⟩ := step_fail_frame G L sch cost gradient s h
  obtain ⟨h1, h2, h3, h4⟩ := step_common G L sch cost gradient s
  exact ⟨hx, hlx, h1, h2, h3, h4,
    fun h0 => step_velocity_zero G L sch cost gradient s h0,
    fun hp => step_velocity_pos G L sch cost gradient s hp⟩

/-- Witness for C9 at a concrete failing line search. -/
theorem c9_failed_step_effects_witness :
    (step euclid1 lsFail Scheme.polakRibiere costW gradW sW1).1 = false ∧
    (step euclid1 lsFail Scheme.polakRibiere costW gradW sW1).2.x = sW1.x ∧
    (step euclid1 lsFail Scheme.polakRibiere costW gradW sW1).2.grad = gradW sW1.x := by
  have h : (step euclid1 lsFail Scheme.polakRibiere costW gradW sW1).1 = false := by
    decide
  have hc := c9_failed_step_effects euclid1 lsFail Scheme.polakRibiere costW gradW sW1 h
  exact ⟨h, hc.1, hc.2.2.2.1⟩

/-- The source loop and the spec-side iteration agree whenever the
remaining fuel fits under the cap, in particular for the `optimize`
entry conditions (`n = 0`, fuel `= maxSteps`). -/
theorem optLoop_eq_specIterate (G : Geometry Point Vector)
    (L : LineSearchModel μ) (sch : Scheme) (cost : Point → ℚ)
    (gradient : Point → Vector) :
    ∀ (fuel : ℕ) (s : CGState Point Vector μ), s.n + fuel ≤ s.maxSteps →
      optLoop G L sch cost gradient fuel s =
        specIterate G L sch cost gradient fuel s := by
  intro fuel
  induction fuel with
  | zero => intro s _; rfl
  | succ k ih =>
      intro s h
      have hlt : s.n < s.maxSteps := by omega
      have hn := step_n G L sch cost gradient s
      have hm := step_maxSteps G L sch cost gradient s
      rw [optLoop, specIterate]
      simp only [if_pos hlt]
      cases hr : (step G L sch cost gradient s).1
      · simp [hr]
      · simp only [hr]
        refine ih _ ?_
        simp only [hn, hm]
        omega

/-- C2: `optimize(initial, cost, gradient)` sets `x` to `initial`,
resets the line search (clearing its memory), then iterates `step` at
most `maxSteps` times stopping at the first failed step, and returns the
final value of `x` (together with mutating the instance into the final
state). -/
theorem c2_optimize_refines_spec (G : Geometry Point Vector)
    (L : LineSearchModel μ) (sch : Scheme) (cost : Point → ℚ)
    (gradient : Point → Vector) (initial : Point)
    (s : CGState Point Vector μ) :
    optimize G L sch cost gradient initial s =
      ((specIterate G L sch cost gradient s.maxSteps
          { s with x := initial, n := 0,
                   ls := { alpha := s.ls.alpha, mem := L.reset0 } }).x,
        specIterate G L sch cost gradient s.maxSteps
          { s with x := initial, n := 0,
                   ls := { alpha := s.ls.alpha, mem := L.reset0 } }) := by
  unfold optimize resetLS
  dsimp only
  rw [optLoop_eq_specIterate]
  simp

/-- `step` succeeds whenever the line search model only ever returns
positive step sizes. -/
theorem step_fst_true_of_pos (G : Geometry Point Vector)
    (L : LineSearchModel μ) (sch : Scheme) (cost : Point → ℚ)
    (gradient : Point → Vector) (s : CGState Point Vector μ)
    (hpos : ∀ f df m, 0 < (L.search f df m).1) :
    (step G L sch cost gradient s).1 = true := by
  unfold step
  dsimp only
  rw [if_neg (not_le.mpr (hpos _ _ _))]

/-- The loop performs at most `fuel` calls to `step`. -/
theorem optLoopCount_le (G : Geometry Point Vector) (L : LineSearchModel μ)
    (sch : Scheme) (cost : Point → ℚ) (gradient : Point → Vector) :
    ∀ (fuel : ℕ) (s : CGState Point Vector μ),
      optLoopCount G L sch cost gradient fuel s ≤ fuel := by
  intro fuel
  induction fuel with
  | zero => intro s; simp [optLoopCount]
  | succ k ih =>
      intro s
      simp only [optLoopCount]
      split
      · split
        · exact le_trans (Nat.add_le_add_left (ih _) 1) (by omega)
        · omega
      · omega

/-- With an always-improving line search the loop spends all its fuel. -/
theorem optLoopCount_eq_of_pos (G : Geometry Point Vector)
    (L : LineSearchModel μ) (sch : Scheme) (cost : Point → ℚ)
    (gradient : Point → Vector)
    (hpos : ∀ f df m, 0 < (L.search f df m).1) :
    ∀ (fuel : ℕ) (s : CGState Point Vector μ), s.n + fuel ≤ s.maxSteps →
      optLoopCount G L sch cost gradient fuel s = fuel := by
  intro fuel
  induction fuel with
  | zero => intro s _; rfl
  | succ k ih =>
      intro s h
      have hlt : s.n < s.maxSteps := by omega
      have hn := step_n G L sch cost gradient s
      have hm := step_maxSteps G L sch cost gradient s
      simp only [optLoopCount]
      simp only [if_pos hlt, step_fst_true_of_pos G L sch cost gradient s hpos,
        if_true]
      rw [ih]
      · omega
      · simp only [hn, hm]
        omega

/-- C7: `optimize` always terminates after at most `maxSteps` calls to
`step` (there is no convergence check of its own), and when the line
search reports an improving `alpha > 0` on every call — as for a cost
with no minimum along any geodesic — it performs exactly `maxSteps`
iterations. -/
theorem c7_iteration_cap (G : Geometry Point Vector) (L : LineSearchModel μ)
    (sch : Scheme) (cost : Point → ℚ) (gradient : Point → Vector)
    (initial : Point) (s : CGState Point Vector μ) :
    optimizeCount G L sch cost gradient initial s ≤ s.maxSteps ∧
    ((∀ f df m, 0 < (L.search f df m).1) →
      optimizeCount G L sch cost gradient initial s = s.maxSteps) := by
  constructor
  · exact optLoopCount_le G L sch cost gradient s.maxSteps _
  · intro hpos
    exact optLoopCount_eq_of_pos G L sch cost gradient hpos s.maxSteps _ (by simp)

/-- Witness for C7 with an always-improving line search. -/
theorem c7_iteration_cap_witness :
    (∀ f df m, 0 < (lsOne.search f df m).1) ∧
    optimizeCount euclid1 lsOne Scheme.daiYuan costW gradW 3 sW1 = sW1.maxSteps := by
  refine ⟨fun f df m => one_pos, ?_⟩
  exact (c7_iteration_cap euclid1 lsOne Scheme.daiYuan costW gradW 3 sW1).2
    (fun f df m => one_pos)

/-- Normal form of a first-iteration `step` (`n = 0`): the scheme branch
is skipped, so the stale `lastX`, `lastGrad`, `ptLastVel` and stored
`alpha` are never read; `ptLastVel` (and on failure `x`, `lastX`) pass
through unchanged. -/
theorem step_zero_eq (G : Geometry Point Vector) (L : LineSearchModel μ)
    (sch : Scheme) (cost : Point → ℚ) (gradient : Point → Vector)
    (s : CGState Point Vector μ) (h : s.n = 0) :
    step G L sch cost gradient s =
      (let V := G.neg (gradient s.x)
       let r := L.search (fun t => cost (G.geval s.x V t))
         (fun t => G.inner (G.geval s.x V t) (gradient (G.geval s.x V t))
           (G.gpt s.x V V t)) s.ls.mem
       if r.1 ≤ 0 then
         (false, { s with lastGrad := s.grad, grad := gradient s.x, velocity := V, geoPt := s.x, geoVel := V, ls := ⟨r.1, r.2⟩ })
       else
         (true, { s with lastX := s.x, x := G.geval s.x V r.1, lastGrad := s.grad, grad := gradient s.x, velocity := V, geoPt := s.x, geoVel := V, ls := ⟨r.1, r.2⟩ })) := by
  simp [step, h]

/-- Two first-iteration `step` calls agreeing on `x` and the line-search
memory — but possibly differing in scheme, `lastX`, `lastGrad`,
`ptLastVel` and stored `alpha` — agree on the success flag and on every
written field. -/
theorem step_zero_congr (G : Geometry Point Vector) (L : LineSearchModel μ)
    (sch1 sch2 : Scheme) (cost : Point → ℚ) (gradient : Point → Vector)
    (s1 s2 : CGState Point Vector μ) (h1 : s1.n = 0) (h2 : s2.n = 0)
    (hx : s1.x = s2.x) (hm : s1.ls.mem = s2.ls.mem) :
    (step G L sch1 cost gradient s1).1 = (step G L sch2 cost gradient s2).1 ∧
    (step G L sch1 cost gradient s1).2.x = (step G L sch2 cost gradient s2).2.x ∧
    (step G L sch1 cost gradient s1).2.grad =
      (step G L sch2 cost gradient s2).2.grad ∧
    (step G L sch1 cost gradient s1).2.velocity =
      (step G L sch2 cost gradient s2).2.velocity ∧
    (step G L sch1 cost gradient s1).2.geoPt =
      (step G L sch2 cost gradient s2).2.geoPt ∧
    (step G L sch1 cost gradient s1).2.geoVel =
      (step G L sch2 cost gradient s2).2.geoVel ∧
    (step G L sch1 cost gradient s1).2.ls =
      (step G L sch2 cost gradient s2).2.ls ∧
    ((step G L sch1 cost gradient s1).1 = true →
      (step G L sch1 cost gradient s1).2.lastX =
        (step G L sch2 cost gradient s2).2.lastX) := by
  obtain ⟨n1, ms1, x1, lx1, g1, lg1, v1, pt1, gp1, gv1, ls1⟩ := s1
  obtain ⟨n2, ms2, x2, lx2, g2, lg2, v2, pt2, gp2, gv2, ls2⟩ := s2
  obtain ⟨a1, m1⟩ := ls1
  obtain ⟨a2, m2⟩ := ls2
  dsimp only at h1 h2 hx hm
  subst h1; subst h2; subst hx; subst hm
  simp only [step]
  split <;> split <;> simp_all

/-- A mid-run `step` (`n > 0`) is determined by every field except the
stale `lastGrad` and `ptLastVel`, which it overwrites before reading. -/
theorem step_congr_pos (G : Geometry Point Vector) (L : LineSearchModel μ)
    (sch : Scheme) (cost : Point → ℚ) (gradient : Point → Vector)
    (s1 s2 : CGState Point Vector μ) (h1 : 0 < s1.n)
    (hn : s1.n = s2.n) (hms : s1.maxSteps = s2.maxSteps) (hx : s1.x = s2.x)
    (hlx : s1.lastX = s2.lastX) (hg : s1.grad = s2.grad)
    (hv : s1.velocity = s2.velocity) (hgp : s1.geoPt = s2.geoPt)
    (hgv : s1.geoVel = s2.geoVel) (hls : s1.ls = s2.ls) :
    step G L sch cost gradient s1 = step G L sch cost gradient s2 := by
  obtain ⟨n1, ms1, x1, lx1, g1, lg1, v1, pt1, gp1, gv1, ls1⟩ := s1
  obtain ⟨n2, ms2, x2, lx2, g2, lg2, v2, pt2, gp2, gv2, ls2⟩ := s2
  dsimp only at hn hms hx hlx hg hv hgp hgv hls h1
  subst hn; subst hms; subst hx; subst hlx; subst hg
  subst hv; subst hgp; subst hgv; subst hls
  simp [step, h1]

/-- The loop never changes `maxSteps`. -/
theorem optLoop_maxSteps (G : Geometry Point Vector) (L : LineSearchModel μ)
    (sch : Scheme) (cost : Point → ℚ) (gradient : Point → Vector) :
    ∀ (fuel : ℕ) (s : CGState Point Vector μ),
      (optLoop G L sch cost gradient fuel s).maxSteps = s.maxSteps := by
  intro fuel
  induction fuel with
  | zero => intro s; rfl
  | succ k ih =>
      intro s
      simp only [optLoop]
      split
      · split
        · rw [ih]
          simp [step_maxSteps]
        · exact step_maxSteps G L sch cost gradient s
      · rfl

/-- Two loop runs whose states agree on the fields a run can observe —
everything when `n > 0`, and only `n`, `maxSteps`, `x` and the
line-search memory when `n = 0` — visit the same points and end at the
same `x`. -/
theorem optLoop_congr (G : Geometry Point Vector) (L : LineSearchModel μ)
    (sch : Scheme) (cost : Point → ℚ) (gradient : Point → Vector) :
    ∀ (fuel : ℕ) (s1 s2 : CGState Point Vector μ),
      s1.n = s2.n → s1.maxSteps = s2.maxSteps → s1.x = s2.x →
      s1.ls.mem = s2.ls.mem →
      (0 < s1.n → s1.lastX = s2.lastX ∧ s1.grad = s2.grad ∧
        s1.velocity = s2.velocity ∧ s1.geoPt = s2.geoPt ∧
        s1.geoVel = s2.geoVel ∧ s1.ls = s2.ls) →
      (optLoop G L sch cost gradient fuel s1).x =
        (optLoop G L sch cost gradient fuel s2).x ∧
      optLoopTraj G L sch cost gradient fuel s1 =
        optLoopTraj G L sch cost gradient fuel s2 := by
  intro fuel
  induction fuel with
  | zero => intro s1 s2 _ _ hx _ _; exact ⟨hx, rfl⟩
  | succ k ih =>
      intro s1 s2 hn hms hx hmem hrest
      rcases Nat.eq_zero_or_pos s1.n with h0 | hpos
      · have h0' : s2.n = 0 := hn ▸ h0
        obtain ⟨e1, e2, e3, e4, e5, e6, e7, e8⟩ :=
          step_zero_congr G L sch sch cost gradient s1 s2 h0 h0' hx hmem
        simp only [optLoop, optLoopTraj]
        rw [hn, hms, e1]
        by_cases hlt : s2.n < s2.maxSteps
        · simp only [if_pos hlt]
          cases hr : (step G L sch cost gradient s2).1
          · simp_all
          · have hr1 : (step G L sch cost gradient s1).1 = true := e1.trans hr
            simp only [if_pos rfl, ite_true]
            refine ⟨?_, ?_⟩
            · exact (ih _ _ (by simp [step_n, hn]) (by simp [step_maxSteps, hms])
                (by simpa using e2)
                (by simpa using congrArg LineSearchState.mem e7)
                (fun _ => ⟨by simpa using e8 hr1, by simpa using e3,
                  by simpa using e4, by simpa using e5, by simpa using e6,
                  by simpa using e7⟩)).1
            · rw [e2]
              exact congrArg (List.cons ((step G L sch cost gradient s2).2.x))
                ((ih _ _ (by simp [step_n, hn]) (by simp [step_maxSteps, hms])
                  (by simpa using e2)
                  (by simpa using congrArg LineSearchState.mem e7)
                  (fun _ => ⟨by simpa using e8 hr1, by simpa using e3,
                    by simpa using e4, by simpa using e5, by simpa using e6,
                    by simpa using e7⟩)).2)
        · simp only [if_neg hlt]
          exact ⟨hx, trivial⟩
      · obtain ⟨hlx, hg, hv, hgp, hgv, hls⟩ := hrest hpos
        have hsteps := step_congr_pos G L sch cost gradient s1 s2 hpos hn hms hx
          hlx hg hv hgp hgv hls
        simp only [optLoop, optLoopTraj]
        rw [hn, hms, hsteps]
        by_cases hlt : s2.n < s2.maxSteps
        · simp only [if_pos hlt]
          constructor <;> trivial
        · simp only [if_neg hlt]
          exact ⟨hx, trivial⟩

/-- `optimize` leaves `maxSteps` unchanged. -/
theorem optimize_maxSteps (G : Geometry Point Vector) (L : LineSearchModel μ)
    (sch : Scheme) (cost : Point → ℚ) (gradient : Point → Vector)
    (initial : Point) (s : CGState Point Vector μ) :
    (optimize G L sch cost gradient initial s).2.maxSteps = s.maxSteps := by
  unfold optimize
  dsimp only
  rw [optLoop_maxSteps]

/-- Two `optimize` runs from the same initial point agree on the result
and on the visited points as soon as the incoming states agree on
`maxSteps`: the reset of `x`, `n` and the line-search memory hides every
other incoming field. -/
theorem optimize_congr (G : Geometry Point Vector) (L : LineSearchModel μ)
    (sch : Scheme) (cost : Point → ℚ) (gradient : Point → Vector)
    (initial : Point) (s1 s2 : CGState Point Vector μ)
    (hms : s1.maxSteps = s2.maxSteps) :
    (optimize G L sch cost gradient initial s1).1 =
      (optimize G L sch cost gradient initial s2).1 ∧
    optimizeTraj G L sch cost gradient initial s1 =
      optimizeTraj G L sch cost gradient initial s2 := by
  unfold optimize optimizeTraj resetLS
  dsimp only
  rw [hms]
  exact optLoop_congr G L sch cost gradient s2.maxSteps _ _ (by simp)
    (by simp [hms]) (by simp) (by simp) (by intro h; simp at h)

/-- C8: running `optimize` a second time on the instance state left by a
first run, with the same initial point and deterministic cost and
gradient, visits exactly the same points and returns the same result:
resetting only `x`, `n` and the line search leaks no state between runs
even though `grad`, `lastGrad`, `lastX`, `velocity` and `ptLastVel` are
not reset. -/
theorem c8_idempotent_reset (G : Geometry Point Vector) (L : LineSearchModel μ)
    (sch : Scheme) (cost : Point → ℚ) (gradient : Point → Vector)
    (initial : Point) (s : CGState Point Vector μ) :
    (optimize G L sch cost gradient initial
        (optimize G L sch cost gradient initial s).2).1 =
      (optimize G L sch cost gradient initial s).1 ∧
    optimizeTraj G L sch cost gradient initial
        (optimize G L sch cost gradient initial s).2 =
      optimizeTraj G L sch cost gradient initial s := by
  exact optimize_congr G L sch cost gradient initial _ _
    (optimize_maxSteps G L sch cost gradient initial s)

/-- C10: on the first iteration (`n = 0`) `step` never invokes the
scheme's `modifier` and never reads `lastX`, `lastGrad`, `ptLastVel` or
the stored line-search `alpha`: two states agreeing on every other
field produce identical observable results even under different schemes,
the velocity is the bare negative gradient, and `ptLastVel` passes
through, so the unguarded divisions of the beta formulas are never
evaluated at `n = 0`. -/
theorem c10_first_iteration_isolation (G : Geometry Point Vector)
    (L : LineSearchModel μ) (sch1 sch2 : Scheme) (cost : Point → ℚ)
    (gradient : Point → Vector) (s1 s2 : CGState Point Vector μ)
    (h1 : s1.n = 0) (h2 : s2.n = 0) (hms : s1.maxSteps = s2.maxSteps)
    (hx : s1.x = s2.x) (hg : s1.grad = s2.grad)
    (hv : s1.velocity = s2.velocity) (hgp : s1.geoPt = s2.geoPt)
    (hgv : s1.geoVel = s2.geoVel) (hm : s1.ls.mem = s2.ls.mem) :
    (step G L sch1 cost gradient s1).1 = (step G L sch2 cost gradient s2).1 ∧
    (step G L sch1 cost gradient s1).2.x =
      (step G L sch2 cost gradient s2).2.x ∧
    (step G L sch1 cost gradient s1).2.grad =
      (step G L sch2 cost gradient s2).2.grad ∧
    (step G L sch1 cost gradient s1).2.lastGrad =
      (step G L sch2 cost gradient s2).2.lastGrad ∧
    (step G L sch1 cost gradient s1).2.velocity =
      (step G L sch2 cost gradient s2).2.velocity ∧
    (step G L sch1 cost gradient s1).2.geoPt =
      (step G L sch2 cost gradient s2).2.geoPt ∧
    (step G L sch1 cost gradient s1).2.geoVel =
      (step G L sch2 cost gradient s2).2.geoVel ∧
    (step G L sch1 cost gradient s1).2.ls =
      (step G L sch2 cost gradient s2).2.ls ∧
    (step G L sch1 cost gradient s1).2.velocity = G.neg (gradient s1.x) ∧
    (step G L sch1 cost gradient s1).2.ptLastVel = s1.ptLastVel ∧
    (step G L sch2 cost gradient s2).2.ptLastVel = s2.ptLastVel ∧
    ((step G L sch1 cost gradient s1).1 = true →
      (step G L sch1 cost gradient s1).2.lastX =
        (step G L sch2 cost gradient s2).2.lastX) := by
  obtain ⟨e1, e2, e3, e4, e5, e6, e7, e8⟩ :=
    step_zero_congr G L sch1 sch2 cost gradient s1 s2 h1 h2 hx hm
  have c1 := step_common G L sch1 cost gradient s1
  have c2 := step_common G L sch2 cost gradient s2
  have z1 := step_velocity_zero G L sch1 cost gradient s1 h1
  have z2 := step_velocity_zero G L sch2 cost gradient s2 h2
  exact ⟨e1, e2, e3, c1.1.trans (hg.trans c2.1.symm), e4, e5, e6, e7,
    z1.1, z1.2, z2.2, e8⟩

/-- Witness for C10: two fresh states differing only in `lastX`,
`lastGrad`, `ptLastVel` and the stored `alpha`, run under different
schemes. -/
theorem c10_first_iteration_isolation_witness :
    (sWa.n = 0 ∧ sWb.n = 0 ∧ sWa.maxSteps = sWb.maxSteps ∧ sWa.x = sWb.x ∧
      sWa.grad = sWb.grad ∧ sWa.velocity = sWb.velocity ∧
      sWa.geoPt = sWb.geoPt ∧ sWa.geoVel = sWb.geoVel ∧
      sWa.ls.mem = sWb.ls.mem) ∧
    (step euclid1 lsOne Scheme.fletcherReeves costW gradW sWa).1 =
      (step euclid1 lsOne Scheme.conjugateDescent costW gradW sWb).1 ∧
    (step euclid1 lsOne Scheme.fletcherReeves costW gradW sWa).2.ptLastVel =
      sWa.ptLastVel := by
  obtain ⟨e1, e2, e3, e4, e5, e6, e7, e8, e9, e10, e11, e12⟩ :=
    c10_first_iteration_isolation euclid1 lsOne Scheme.fletcherReeves
      Scheme.conjugateDescent costW gradW sWa sWb rfl rfl rfl rfl rfl rfl
      rfl rfl rfl
  exact ⟨⟨rfl, rfl, rfl, rfl, rfl, rfl, rfl, rfl, rfl⟩, e1, e10⟩

end Mqf
